import Mathlib

/-!
Verification of the local media library subsystem of the Nova desktop
media application.  The Rust sources are shallowly embedded below:

* `src/services/local/scanner.rs`   — `FileScanner::process_file`
* `src/services/local/database.rs`  — the SQLite catalog (`Database`)
* `src/services/local/watcher.rs`   — `FileWatcher` event classification
* `src/services/local/mod.rs`       — `LocalMusicProvider` search/ranking
* `src/services/audio_player.rs`    — `Queue`
* `src/services/manager.rs`         — `ServiceManager` aggregation
* `src/window.rs`                   — `calculate_match_score`

Strings are modelled by Lean `String` (a structure over `List Char`);
all character-level operations are defined from scratch over `List Char`
so that every definition evaluates inside the kernel.  SQLite tables are
modelled as lists of rows; `INSERT OR REPLACE` / `INSERT OR IGNORE` and
the `WHERE` filters are given their statement-level semantics.  Rust's
stable `sort_by` is modelled by `List.insertionSort`, which places an
earlier element before a later one whenever the comparator ties — the
defining property of a stable sort, so it computes the same list as any
stable sort for the same total preorder.
-/

namespace Nova

/-- ASCII lowercase of one character, as Rust `to_lowercase` acts on the
ASCII strings appearing in this development. -/
def asciiLower (c : Char) : Char :=
  if 'A' ≤ c ∧ c ≤ 'Z' then Char.ofNat (c.toNat + 32) else c

/-- Lowercase a string (ASCII model of Rust `str::to_lowercase`). -/
def toLowerS (s : String) : String :=
  ⟨s.data.map asciiLower⟩

/-- Substring containment on character lists (Rust `str::contains`). -/
def containsSub : List Char → List Char → Bool
  | [], needle => needle.isEmpty
  | hay@(_ :: t), needle => needle.isPrefixOf hay || containsSub t needle

/-- Rust `str::contains` on strings. -/
def strContains (hay needle : String) : Bool :=
  containsSub hay.data needle.data

/-- Rust `str::starts_with` on strings. -/
def strStarts (s pre : String) : Bool :=
  pre.data.isPrefixOf s.data

/-- Helper for `splitWs`: accumulate the current word (reversed). -/
def splitWsGo : List Char → List Char → List (List Char)
  | [], acc => if acc.isEmpty then [] else [acc.reverse]
  | c :: rest, acc =>
    if c.isWhitespace then
      if acc.isEmpty then splitWsGo rest [] else acc.reverse :: splitWsGo rest []
    else splitWsGo rest (c :: acc)

/-- Rust `str::split_whitespace`: whitespace-separated words, no empties. -/
def splitWs (s : String) : List String :=
  (splitWsGo s.data []).map fun cs => ⟨cs⟩

/-! ### SHA-1 (`sha1::Sha1`), used by the scanner and the catalog for ids

Machine words are `Nat` reduced mod `2^32`; bitwise operations are
defined by 32-step binary recursion so that the kernel can evaluate
them. -/

/-- Reduce mod `2^32`. -/
def mask32 (n : Nat) : Nat := n % 4294967296

/-- Combine two numbers bit by bit with `f` for `fuel` bits. -/
def bitZip (f : Nat → Nat → Nat) : Nat → Nat → Nat → Nat
  | 0, _, _ => 0
  | fuel + 1, a, b => f (a % 2) (b % 2) + 2 * bitZip f fuel (a / 2) (b / 2)

/-- 32-bit exclusive or. -/
def xor32 (a b : Nat) : Nat := bitZip (fun x y => (x + y) % 2) 32 a b

/-- 32-bit and. -/
def and32 (a b : Nat) : Nat := bitZip (fun x y => x * y) 32 a b

/-- 32-bit or. -/
def or32 (a b : Nat) : Nat := bitZip (fun x y => x + y - x * y) 32 a b

/-- 32-bit complement. -/
def not32 (a : Nat) : Nat := 4294967295 - mask32 a

/-- Rotate a 32-bit word left by `k` (for `k ≤ 32`). -/
def rotl32 (w k : Nat) : Nat :=
  (w % 2 ^ (32 - k)) * 2 ^ k + w % 4294967296 / 2 ^ (32 - k)

/-- UTF-8 encoding of one character. -/
def utf8Bytes (c : Char) : List Nat :=
  let n := c.toNat
  if n < 128 then [n]
  else if n < 2048 then [192 + n / 64, 128 + n % 64]
  else if n < 65536 then [224 + n / 4096, 128 + n / 64 % 64, 128 + n % 64]
  else [240 + n / 262144, 128 + n / 4096 % 64, 128 + n / 64 % 64, 128 + n % 64]

/-- UTF-8 bytes of a string (Rust `str::as_bytes`). -/
def strBytes (s : String) : List Nat :=
  (s.data.map utf8Bytes).flatten

/-- `count` big-endian bytes of `v`. -/
def natToBytesBE : Nat → Nat → List Nat
  | 0, _ => []
  | k + 1, v => natToBytesBE k (v / 256) ++ [v % 256]

/-- SHA-1 message padding: `0x80`, zeros, then the 64-bit bit length. -/
def sha1Pad (msg : List Nat) : List Nat :=
  let len := msg.length
  msg ++ [128] ++ List.replicate ((119 - len % 64) % 64) 0 ++ natToBytesBE 8 (len * 8)

/-- Split into 64-byte chunks (`fuel` bounds the recursion). -/
def chunks64 : Nat → List Nat → List (List Nat)
  | 0, _ => []
  | _, [] => []
  | fuel + 1, l => l.take 64 :: chunks64 fuel (l.drop 64)

/-- Big-endian 32-bit words from bytes. -/
def bytesToWords : List Nat → List Nat
  | b0 :: b1 :: b2 :: b3 :: rest =>
    (((b0 * 256 + b1) * 256 + b2) * 256 + b3) :: bytesToWords rest
  | _ => []

/-- Extend the 16-word schedule to 80 words; `rw` is kept reversed. -/
def sha1Extend : Nat → List Nat → List Nat
  | 0, rw => rw
  | fuel + 1, rw =>
    sha1Extend fuel
      (rotl32 (xor32 (xor32 (rw.getD 2 0) (rw.getD 7 0))
        (xor32 (rw.getD 13 0) (rw.getD 15 0))) 1 :: rw)

/-- SHA-1 round function. -/
def sha1F (i b c d : Nat) : Nat :=
  if i < 20 then or32 (and32 b c) (and32 (not32 b) d)
  else if i < 40 then xor32 b (xor32 c d)
  else if i < 60 then or32 (or32 (and32 b c) (and32 b d)) (and32 c d)
  else xor32 b (xor32 c d)

/-- SHA-1 round constant. -/
def sha1K (i : Nat) : Nat :=
  if i < 20 then 1518500249
  else if i < 40 then 1859775393
  else if i < 60 then 2400959708
  else 3395469782

/-- One SHA-1 round step on the state `(a, b, c, d, e)`. -/
def sha1Step (st : Nat × Nat × Nat × Nat × Nat) (iw : Nat × Nat) :
    Nat × Nat × Nat × Nat × Nat :=
  let (a, b, c, d, e) := st
  let (i, w) := iw
  (mask32 (rotl32 a 5 + sha1F i b c d + e + sha1K i + w), a, rotl32 b 30, c, d)

/-- Process one 64-byte chunk. -/
def sha1Chunk (h : Nat × Nat × Nat × Nat × Nat) (chunk : List Nat) :
    Nat × Nat × Nat × Nat × Nat :=
  let ws := (sha1Extend 64 (bytesToWords chunk).reverse).reverse
  let (a, b, c, d, e) := ws.enum.foldl sha1Step h
  let (h0, h1, h2, h3, h4) := h
  (mask32 (h0 + a), mask32 (h1 + b), mask32 (h2 + c), mask32 (h3 + d), mask32 (h4 + e))

/-- One lowercase hex digit. -/
def hexDigit (n : Nat) : Char :=
  if n < 10 then Char.ofNat (48 + n) else Char.ofNat (87 + n)

/-- Eight lowercase hex digits of a 32-bit word. -/
def toHexWord (w : Nat) : List Char :=
  (List.range 8).map fun i => hexDigit (w / 16 ^ (7 - i) % 16)

/-- SHA-1 digest of a string, in lowercase hex — the Rust code's
`format!("{:x}", hasher.finalize())` after `hasher.update(bytes)`. -/
def sha1Hex (s : String) : String :=
  let padded := sha1Pad (strBytes s)
  let (h0, h1, h2, h3, h4) :=
    (chunks64 padded.length padded).foldl sha1Chunk
      (1732584193, 4023233417, 2562383102, 271733878, 3285377520)
  ⟨toHexWord h0 ++ toHexWord h1 ++ toHexWord h2 ++ toHexWord h3 ++ toHexWord h4⟩

/-! ### Data model (`src/services/models.rs`)

Byte blobs are `List Nat`, timestamps are `Nat`, paths are their string
form (the Rust code itself round-trips paths through `to_str()`). -/

/-- `models.rs` `ArtworkSource`. -/
inductive ArtworkSource
  | embedded (format : String) (data : List Nat)
  | local (path : String)
  | remote (url : String) (cacheKey : Option String)
  | none
deriving DecidableEq

/-- `models.rs` `Artwork`. -/
structure Artwork where
  thumbnail : Option (List Nat)
  fullArt : ArtworkSource
deriving DecidableEq

/-- `models.rs` `PlaybackSource`. -/
inductive PlaybackSource
  | localFile (fileFormat : String) (fileSize : Nat) (path : String)
  | spotify (trackId : String) (url : String)
  | youtube (videoId : String) (streamUrl : String)
deriving DecidableEq

/-- `models.rs` `Track`. -/
structure Track where
  id : String
  title : String
  artist : String
  album : String
  duration : Nat
  trackNumber : Option Nat
  discNumber : Option Nat
  releaseYear : Option Nat
  genre : Option String
  artwork : Artwork
  source : PlaybackSource
deriving DecidableEq

/-- `models.rs` `Album`. -/
structure Album where
  id : String
  title : String
  artist : String
  year : Option Nat
  artUrl : Option String
  tracks : List String
deriving DecidableEq

/-- `models.rs` `Artist`. -/
structure Artist where
  id : String
  name : String
  albums : List String
deriving DecidableEq

/-- `models.rs` `PlayableItem` (`added_at` timestamp as `Nat`). -/
structure PlayableItem where
  track : Track
  provider : String
  addedAt : Nat
deriving DecidableEq

/-- `models.rs` `SearchResults`. -/
structure SearchResults where
  tracks : List PlayableItem
  albums : List Album
  artists : List Artist
deriving DecidableEq

/-- `models.rs` `SearchWeights`; `f32` multipliers modelled as `Rat`. -/
structure SearchWeights where
  trackWeight : Rat
  albumWeight : Rat
  artistWeight : Rat
deriving DecidableEq

/-- `impl Default for SearchWeights`: 1.0 each. -/
def defaultSearchWeights : SearchWeights := ⟨1, 1, 1⟩

/-! ### Catalog store (`src/services/local/database.rs`)

Each SQLite table is a list of rows in rowid order; `INSERT OR REPLACE`
deletes the rows that collide on a uniqueness constraint and appends the
new row, `INSERT OR IGNORE` is a no-op when any uniqueness constraint
collides.  `database.rs` constructs `Artist`/`Album` values carrying an
`artwork` field, a shape of its own revision of the model; those output
shapes are `DbArtist`/`DbAlbum` below. -/

/-- A row of the `tracks` table. -/
structure TrackRow where
  id : String
  title : String
  artist : String
  album : String
  duration : Nat
  trackNumber : Option Nat
  discNumber : Option Nat
  releaseYear : Option Nat
  genre : Option String
  filePath : String
  fileFormat : String
  fileSize : Nat
  artworkData : Option (List Nat)
  artworkPath : Option String
deriving DecidableEq

/-- A row of the `albums` table (`UNIQUE(title, artist)`). -/
structure AlbumRow where
  id : String
  title : String
  artist : String
  year : Option Nat
  artworkData : Option (List Nat)
  artworkPath : Option String
deriving DecidableEq

/-- A row of the `artists` table (`name` UNIQUE). -/
structure ArtistRow where
  id : String
  name : String
  artworkData : Option (List Nat)
  artworkPath : Option String
deriving DecidableEq

/-- The catalog state: the three tables. -/
structure Db where
  tracks : List TrackRow
  albums : List AlbumRow
  artists : List ArtistRow
deriving DecidableEq

/-- Artist record as constructed by `database.rs` queries. -/
structure DbArtist where
  id : String
  name : String
  albums : List String
  artwork : Option Artwork
deriving DecidableEq

/-- Album record as constructed by `database.rs` queries. -/
structure DbAlbum where
  id : String
  title : String
  artist : String
  year : Option Nat
  artUrl : Option String
  tracks : List String
  artwork : Option Artwork
deriving DecidableEq

/-- The `file_path` column bound on insert (`path.to_str()` for a local
source, `""` otherwise). -/
def sourcePath : PlaybackSource → String
  | .localFile _ _ p => p
  | _ => ""

/-- The `file_format` column bound on insert. -/
def sourceFormat : PlaybackSource → String
  | .localFile f _ _ => f
  | _ => ""

/-- The `file_size` column bound on insert. -/
def sourceSize : PlaybackSource → Nat
  | .localFile _ n _ => n
  | _ => 0

/-- The `artwork_path` column bound on insert (`path` for local art,
`""` otherwise). -/
def artPathStr : ArtworkSource → String
  | .local p => p
  | _ => ""

/-- The `tracks` row bound by `insert_track` / `batch_insert_tracks`. -/
def trackRowOf (t : Track) : TrackRow :=
  ⟨t.id, t.title, t.artist, t.album, t.duration, t.trackNumber, t.discNumber,
    t.releaseYear, t.genre, sourcePath t.source, sourceFormat t.source,
    sourceSize t.source, t.artwork.thumbnail, some (artPathStr t.artwork.fullArt)⟩

/-- `INSERT OR REPLACE INTO tracks`: the `id` primary key is the only
uniqueness constraint. -/
def insertOrReplaceTrack (tbl : List TrackRow) (row : TrackRow) : List TrackRow :=
  tbl.filter (fun r => r.id != row.id) ++ [row]

/-- `Database::ensure_artist`: `INSERT OR IGNORE INTO artists` with
`id = sha1(name)`; ignored when the `id` key or the UNIQUE `name`
collides. -/
def ensureArtistTbl (artists : List ArtistRow) (name : String) : List ArtistRow :=
  if artists.any (fun a => a.id == sha1Hex name || a.name == name) then artists
  else artists ++ [⟨sha1Hex name, name, Option.none, Option.none⟩]

/-- `Database::ensure_album`: `INSERT OR IGNORE INTO albums` with
`id = sha1(title ++ ":" ++ artist)`; ignored when the `id` key or the
`UNIQUE(title, artist)` constraint collides. -/
def ensureAlbumTbl (albums : List AlbumRow) (title artist : String)
    (year : Option Nat) : List AlbumRow :=
  let aid := sha1Hex (title ++ ":" ++ artist)
  if albums.any (fun a => a.id == aid || (a.title == title && a.artist == artist)) then
    albums
  else albums ++ [⟨aid, title, artist, year, Option.none, Option.none⟩]

/-- `Database::insert_track`: ensure the artist and album rows, then
`INSERT OR REPLACE` the track row. -/
def insertTrack (db : Db) (t : Track) : Db :=
  { tracks := insertOrReplaceTrack db.tracks (trackRowOf t)
    albums := ensureAlbumTbl db.albums t.album t.artist t.releaseYear
    artists := ensureArtistTbl db.artists t.artist }

/-- Execution of `Database::batch_insert_tracks` with an optional fault:
`failAt = some i` means the `i`-th track's `INSERT OR REPLACE INTO
tracks` statement returns an SQL error.  `ensure_artist`/`ensure_album`
run on their own pooled connections and commit their own transactions
immediately, so they act on the committed state; the track inserts are
buffered in `tx` (`txTracks`) and take effect only at the final
`tx.commit()`.  On a fault the function returns `Err` and `tx` is
dropped without committing. -/
def batchRunGo (failAt : Option Nat) :
    Db → List TrackRow → List Track → Nat → Bool × Db
  | committed, txTracks, [], _ => (true, { committed with tracks := txTracks })
  | committed, txTracks, t :: rest, i =>
    let committed :=
      { committed with artists := ensureArtistTbl committed.artists t.artist }
    let committed :=
      { committed with albums := ensureAlbumTbl committed.albums t.album t.artist t.releaseYear }
    if failAt = some i then (false, committed)
    else batchRunGo failAt committed (insertOrReplaceTrack txTracks (trackRowOf t)) rest (i + 1)

/-- `Database::batch_insert_tracks` run from a state, with fault point;
first component is `true` on `Ok`, the second is the committed state
after the call. -/
def batchInsertTracksRun (db : Db) (ts : List Track) (failAt : Option Nat) : Bool × Db :=
  batchRunGo failAt db db.tracks ts 0

/-- Fault-free `Database::batch_insert_tracks`. -/
def batchInsertTracks (db : Db) (ts : List Track) : Db :=
  (batchInsertTracksRun db ts Option.none).2

/-- `Database::remove_track_by_path`: read the first matching row's
(artist, album), delete every row with that `file_path`, then prune the
album row when no (album, artist) track remains and the artist row when
no track by that artist remains.  Always returns `Ok`. -/
def removeTrackByPath (db : Db) (p : String) : Db :=
  let first? := db.tracks.find? (fun r => r.filePath == p)
  let tracksAfter := db.tracks.filter (fun r => r.filePath != p)
  match first? with
  | Option.none => { db with tracks := tracksAfter }
  | some r =>
    let albumCount := tracksAfter.countP (fun tr => tr.album == r.album && tr.artist == r.artist)
    let albums' :=
      if albumCount = 0 then
        db.albums.filter (fun a => !(a.title == r.album && a.artist == r.artist))
      else db.albums
    let artistCount := tracksAfter.countP (fun tr => tr.artist == r.artist)
    let artists' :=
      if artistCount = 0 then db.artists.filter (fun a => a.name != r.artist)
      else db.artists
    ⟨tracksAfter, albums', artists'⟩

/-- SQLite `field LIKE '%q%'` (ASCII case-insensitive substring). -/
def sqlLike (field q : String) : Bool :=
  containsSub (toLowerS field).data (toLowerS q).data

/-- The `Track` value built from a `tracks` row by the `database.rs`
read queries (empty `artwork_path` means no local art). -/
def trackOfRow (r : TrackRow) : Track :=
  ⟨r.id, r.title, r.artist, r.album, r.duration, r.trackNumber, r.discNumber,
    r.releaseYear, r.genre,
    ⟨r.artworkData,
      match r.artworkPath with
      | some p => if p != "" then ArtworkSource.local p else ArtworkSource.none
      | Option.none => ArtworkSource.none⟩,
    .localFile r.fileFormat r.fileSize r.filePath⟩

/-- `Database::get_all_tracks`. -/
def getAllTracks (db : Db) : List Track :=
  db.tracks.map trackOfRow

/-- `ORDER BY t.track_number ASC` key (SQLite sorts NULL first). -/
def trackNumLeB (a b : Option Nat) : Bool :=
  match a, b with
  | Option.none, _ => true
  | some _, Option.none => false
  | some x, some y => x ≤ y

/-- Tracks of one album in `track_number` order. -/
def albumTracksSorted (db : Db) (title artist : String) : List TrackRow :=
  List.insertionSort (fun x y => trackNumLeB x.trackNumber y.trackNumber = true)
    (db.tracks.filter (fun t => t.album == title && t.artist == artist))

/-- `Database::get_all_artists`: artist rows minus the sentinel, with
artwork coalesced from the artist's own columns or a joined track. -/
def getAllArtists (db : Db) : List DbArtist :=
  (db.artists.filter (fun a => a.name != "Unknown Artist")).map fun a =>
    let t? := db.tracks.find? (fun tr => tr.artist == a.name)
    let ad := (a.artworkData).orElse fun _ => t?.bind (·.artworkData)
    let ap := (a.artworkPath).orElse fun _ => t?.bind (·.artworkPath)
    ⟨a.id, a.name, [],
      some ⟨ad, match ap with
                | some p => ArtworkSource.local p
                | Option.none => ArtworkSource.none⟩⟩

/-- `Database::get_all_albums`: album rows minus the sentinel title,
with artwork coalesced from the album's own columns or the first member
track (by ascending `track_number`) that has one. -/
def getAllAlbums (db : Db) : List DbAlbum :=
  (db.albums.filter (fun a => a.title != "Unknown Album")).map fun a =>
    let sorted := albumTracksSorted db a.title a.artist
    let ad := (a.artworkData).orElse fun _ =>
      ((sorted.filter (fun t => t.artworkData.isSome)).head?).bind (·.artworkData)
    let ap := (a.artworkPath).orElse fun _ =>
      ((sorted.filter (fun t => t.artworkPath.isSome)).head?).bind (·.artworkPath)
    ⟨a.id, a.title, a.artist, a.year, Option.none, [],
      some ⟨ad, match ap with
                | some p => ArtworkSource.local p
                | Option.none => ArtworkSource.none⟩⟩

/-- `Database::search_artists`: `name LIKE '%q%' AND name != 'Unknown
Artist'`, with `LIMIT`/`OFFSET`. -/
def searchArtists (db : Db) (q : String) (limit offset : Nat) : List DbArtist :=
  (((db.artists.filter (fun a => sqlLike a.name q && a.name != "Unknown Artist")).drop
    offset).take limit).map fun a =>
      let sorted := List.insertionSort
        (fun x y => trackNumLeB x.trackNumber y.trackNumber = true)
        (db.tracks.filter (fun t => t.artist == a.name))
      let ad := (a.artworkData).orElse fun _ => (sorted.head?).bind (·.artworkData)
      let ap := (a.artworkPath).orElse fun _ => (sorted.head?).bind (·.artworkPath)
      ⟨a.id, a.name, [],
        some ⟨ad, match ap with
                  | some p => ArtworkSource.local p
                  | Option.none => ArtworkSource.none⟩⟩

/-- `Database::search_albums`: `(title LIKE '%q%' OR artist LIKE '%q%')
AND title != 'Unknown Album'`, with `LIMIT`/`OFFSET`. -/
def searchAlbums (db : Db) (q : String) (limit offset : Nat) : List DbAlbum :=
  (((db.albums.filter
      (fun a => (sqlLike a.title q || sqlLike a.artist q) && a.title != "Unknown Album")).drop
    offset).take limit).map fun a =>
      let sorted := albumTracksSorted db a.title a.artist
      let ad := (a.artworkData).orElse fun _ => (sorted.head?).bind (·.artworkData)
      let ap := (a.artworkPath).orElse fun _ => (sorted.head?).bind (·.artworkPath)
      ⟨a.id, a.title, a.artist, a.year, Option.none, [],
        some ⟨ad, match ap with
                  | some p => ArtworkSource.local p
                  | Option.none => ArtworkSource.none⟩⟩

/-- `Database::search_tracks`: `title/artist/album LIKE '%q%'` with
`LIMIT`/`OFFSET`; no scoring or ordering beyond table order. -/
def searchTracksDb (db : Db) (q : String) (limit offset : Nat) : List Track :=
  (((db.tracks.filter
      (fun r => sqlLike r.title q || sqlLike r.artist q || sqlLike r.album q)).drop
    offset).take limit).map trackOfRow

/-! ### Metadata extractor (`src/services/local/scanner.rs`)

`FileScanner::process_file` is embedded as a pure function of the path
and a `ScanEnv` describing everything it reads from the outside world
(filesystem and symphonia probe). -/

/-- ASCII uppercase of one character (Rust `to_uppercase` on the ASCII
tag keys involved). -/
def asciiUpper (c : Char) : Char :=
  if 'a' ≤ c ∧ c ≤ 'z' then Char.ofNat (c.toNat - 32) else c

/-- Uppercase a string. -/
def toUpperS (s : String) : String :=
  ⟨s.data.map asciiUpper⟩

/-- Rust `str::parse::<u32>` on decimal digits (sign/overflow edge cases
are out of the modelled input space). -/
def parseNatS (s : String) : Option Nat :=
  if s.data ≠ [] ∧ s.data.all (fun c => '0' ≤ c && c ≤ '9') then
    some (s.data.foldl (fun acc c => acc * 10 + (c.toNat - 48)) 0)
  else Option.none

/-- Split a character list at a separator, keeping empty pieces. -/
def splitOnCharGo (sep : Char) : List Char → List Char → List (List Char)
  | [], acc => [acc.reverse]
  | c :: rest, acc =>
    if c = sep then acc.reverse :: splitOnCharGo sep rest []
    else splitOnCharGo sep rest (c :: acc)

/-- The final path component (Rust `Path::file_name`, string model with
`/` separators). -/
def pathFileName (p : String) : String :=
  ⟨(splitOnCharGo '/' p.data []).getLastD []⟩

/-- Index just after the last occurrence of the final dot of a name, or
`none` when there is no dot after position 0 (Rust's stem/extension
split point). -/
def lastDotIdx (name : List Char) : Option Nat :=
  match (name.enum.filter (fun ic => ic.2 = '.')).getLast? with
  | some (0, _) => Option.none
  | some (i, _) => some i
  | Option.none => Option.none

/-- Rust `Path::file_stem` (defaulted by the caller when absent). -/
def pathFileStem (p : String) : String :=
  let name := (pathFileName p).data
  match lastDotIdx name with
  | some i => ⟨name.take i⟩
  | Option.none => ⟨name⟩

/-- Rust `Path::extension`. -/
def pathExt (p : String) : Option String :=
  let name := (pathFileName p).data
  match lastDotIdx name with
  | some i => some ⟨name.drop (i + 1)⟩
  | Option.none => Option.none

/-- Rust `Path::parent` joined with a file name. -/
def parentJoin (p name : String) : String :=
  ⟨List.intercalate ['/'] (splitOnCharGo '/' p.data []).dropLast ++ '/' :: name.data⟩

/-- The symphonia standard tag keys `process_file` inspects. -/
inductive StdTagKey
  | trackTitle
  | artistKey
  | albumKey
  | trackNumberKey
  | discNumberKey
  | dateKey
  | genreKey
  | otherStd
deriving DecidableEq

/-- One metadata tag: optional standard key, raw key, value. -/
structure MetaTag where
  stdKey : Option StdTagKey
  key : String
  value : String
deriving DecidableEq

/-- Everything `process_file` reads from the file system and the
symphonia probe. -/
structure ScanEnv where
  fileExists : String → Bool
  probeOk : Bool
  fileSize : Nat
  tags : List MetaTag
  nFrames : Option Nat
  sampleRate : Option Nat
  embeddedImage : Option (List Nat)
  coverExists : String → Bool

/-- Extraction failures of `process_file`. -/
inductive ScanError
  | notFound
  | unreadable
deriving DecidableEq

/-- Mutable tag-resolution state of the `process_file` metadata loop. -/
structure TagAcc where
  title : String
  artist : String
  album : String
  trackNumber : Option Nat
  discNumber : Option Nat
  releaseYear : Option Nat
  genre : Option String
deriving DecidableEq

/-- The year parsed from a date tag: text before the first `-`. -/
def yearOfDate (v : String) : Option Nat :=
  parseNatS ⟨v.data.takeWhile (fun c => c ≠ '-')⟩

/-- One iteration of the `process_file` tag loop: standardized keys
overwrite, raw-key fallbacks apply only while the field still holds its
default. -/
def applyTag (defTitle : String) (st : TagAcc) (tag : MetaTag) : TagAcc :=
  match tag.stdKey with
  | some .trackTitle => { st with title := tag.value }
  | some .artistKey => { st with artist := tag.value }
  | some .albumKey => { st with album := tag.value }
  | some .trackNumberKey => { st with trackNumber := parseNatS tag.value }
  | some .discNumberKey => { st with discNumber := parseNatS tag.value }
  | some .dateKey => { st with releaseYear := yearOfDate tag.value }
  | some .genreKey => { st with genre := some tag.value }
  | _ =>
    if toUpperS tag.key == "TITLE" && st.title == defTitle then
      { st with title := tag.value }
    else if toUpperS tag.key == "ARTIST" && st.artist == "Unknown Artist" then
      { st with artist := tag.value }
    else if toUpperS tag.key == "ALBUM" && st.album == "Unknown Album" then
      { st with album := tag.value }
    else if toUpperS tag.key == "TRACKNUMBER" && st.trackNumber.isNone then
      { st with trackNumber := parseNatS tag.value }
    else if toUpperS tag.key == "DISCNUMBER" && st.discNumber.isNone then
      { st with discNumber := parseNatS tag.value }
    else if toUpperS tag.key == "DATE" && st.releaseYear.isNone then
      { st with releaseYear := yearOfDate tag.value }
    else if toUpperS tag.key == "GENRE" && st.genre.isNone then
      { st with genre := some tag.value }
    else st

/-- Conventional cover file names probed in the parent directory. -/
def coverFilenames : List String :=
  ["cover.jpg", "cover.jpeg", "cover.png", "folder.jpg", "folder.jpeg",
   "folder.png", "album.jpg", "album.jpeg", "album.png", "front.jpg",
   "front.jpeg", "front.png"]

/-- `FileScanner::process_file`. -/
def processFile (env : ScanEnv) (path : String) : Except ScanError Track :=
  if !env.fileExists path then .error .notFound
  else if !env.probeOk then .error .unreadable
  else
    let id := sha1Hex path
    let defTitle := if (pathFileStem path).data.isEmpty then "Unknown" else pathFileStem path
    let st := env.tags.foldl (applyTag defTitle)
      ⟨defTitle, "Unknown Artist", "Unknown Album",
        Option.none, Option.none, Option.none, Option.none⟩
    let duration :=
      match env.nFrames, env.sampleRate with
      | some f, some r => if r = 0 then 0 else f / r
      | _, _ => 0
    let artwork :=
      match env.embeddedImage with
      | some img => Artwork.mk (some img) ArtworkSource.none
      | Option.none =>
        match coverFilenames.find? (fun n => env.coverExists (parentJoin path n)) with
        | some n => Artwork.mk Option.none (ArtworkSource.local (parentJoin path n))
        | Option.none => Artwork.mk Option.none ArtworkSource.none
    let fileFormat := toLowerS ((pathExt path).getD "unknown")
    .ok ⟨id, st.title, st.artist, st.album, duration, st.trackNumber,
      st.discNumber, st.releaseYear, st.genre, artwork,
      .localFile fileFormat env.fileSize path⟩

/-! ### Filesystem watcher (`src/services/local/watcher.rs`) -/

/-- The typed events the watcher emits. -/
inductive FileEvent
  | created (path : String)
  | modified (path : String)
  | removed (path : String)
deriving DecidableEq

/-- The raw OS notification kinds the closure matches on. -/
inductive RawEventKind
  | createKind
  | modifyKind
  | removeKind
  | otherKind
deriving DecidableEq

/-- The classification closure in `FileWatcher::new`: `pathNow` is the
`path.exists()` check at processing time. -/
def classifyEvent (pathNow : String → Bool) (k : RawEventKind) (p : String) :
    Option FileEvent :=
  match k with
  | .createKind => if pathNow p then some (.created p) else Option.none
  | .modifyKind => if pathNow p then some (.modified p) else some (.removed p)
  | .removeKind => some (.removed p)
  | .otherKind => Option.none

/-! ### Search/ranking (`src/services/local/mod.rs`, `src/window.rs`)

The third-party `SkimMatcherV2::fuzzy_match` is a parameter
`fuzzy : String → String → Option Int` (its crate is not part of this
repository); every theorem below holds for an arbitrary matcher.  The
`f32` scores of the album/artist scorers are exact on the integral
values involved and are modelled as `Int`. -/

/-- `split_whitespace` of the lowercased query. -/
def queryWordsOf (q : String) : List String :=
  splitWs (toLowerS q)

/-- Per-word additive score of one track in
`LocalMusicProvider::search_tracks`. -/
def wordScore (fuzzy : String → String → Option Int) (t : Track) (w : String) : Int :=
  (match fuzzy t.title w with | some s => s * 3 | Option.none => 0)
  + (if strContains (toLowerS t.title) w then 500 else 0)
  + (match fuzzy t.artist w with | some s => s * 2 | Option.none => 0)
  + (if strContains (toLowerS t.artist) w then 300 else 0)
  + (match fuzzy t.album w with | some s => s | Option.none => 0)
  + (if strContains (toLowerS t.album) w then 200 else 0)

/-- Number of query words matching any of title/artist/album. -/
def matchedWords (words : List String) (t : Track) : Nat :=
  words.countP fun w =>
    strContains (toLowerS t.title) w || strContains (toLowerS t.artist) w
      || strContains (toLowerS t.album) w

/-- Total score of one track: word scores plus the coverage bonus. -/
def trackTotalScore (fuzzy : String → String → Option Int)
    (words : List String) (t : Track) : Int :=
  (words.map (wordScore fuzzy t)).sum
    + (if matchedWords words t > 0 then (matchedWords words t : Int) * 1000 else 0)

/-- The `filter_map` stage: score each track, keep it only when the
score is positive or some word matched. -/
def scoredCandidates (fuzzy : String → String → Option Int)
    (tracks : List Track) (q : String) : List (Int × Track) :=
  let words := queryWordsOf q
  tracks.filterMap fun t =>
    let score := trackTotalScore fuzzy words t
    if score > 0 ∨ matchedWords words t > 0 then some (score, t) else Option.none

/-- Descending-score order on scored values; ties keep list order under
the stable sort, as Rust's `sort_by(|a, b| b.0.cmp(&a.0))` does. -/
def scoreDesc {α : Type} (a b : Int × α) : Prop := b.1 ≤ a.1

instance {α : Type} : DecidableRel (@scoreDesc α) :=
  fun a b => inferInstanceAs (Decidable (b.1 ≤ a.1))

/-- The fully scored and sorted candidate list, before pagination. -/
def sortedScored (fuzzy : String → String → Option Int)
    (tracks : List Track) (q : String) : List (Int × Track) :=
  List.insertionSort scoreDesc (scoredCandidates fuzzy tracks q)

/-- The complete descending ranking of matching tracks. -/
def rankedTracks (fuzzy : String → String → Option Int)
    (tracks : List Track) (q : String) : List Track :=
  (sortedScored fuzzy tracks q).map (·.2)

/-- `LocalMusicProvider::search_tracks`: score, sort, then
`skip(offset).take(limit)`. -/
def searchTracksP (fuzzy : String → String → Option Int) (tracks : List Track)
    (q : String) (limit offset : Nat) : List Track :=
  (((sortedScored fuzzy tracks q).drop offset).take limit).map (·.2)

/-- `LocalMusicProvider::score_artist_match`. -/
def scoreArtistMatch (fuzzy : String → String → Option Int)
    (artistName q : String) : Int :=
  let ql := toLowerS q
  (if toLowerS artistName == ql then 1000 else 0)
  + (match fuzzy artistName ql with | some s => s * 3 | Option.none => 0)
  + (if strContains (toLowerS artistName) ql then 500 else 0)

/-- `LocalMusicProvider::score_album_match`. -/
def scoreAlbumMatch (fuzzy : String → String → Option Int)
    (album artist q : String) : Int :=
  let ql := toLowerS q
  (if toLowerS album == ql then 1000 else 0)
  + (if toLowerS artist == ql then 500 else 0)
  + (match fuzzy album ql with | some s => s * 3 | Option.none => 0)
  + (match fuzzy artist ql with | some s => s * 2 | Option.none => 0)
  + (if strContains (toLowerS album) ql then 300 else 0)
  + (if strContains (toLowerS artist) ql then 200 else 0)

/-- The `"album-artist"` HashMap key of the provider album collectors. -/
def albumKeyOf (t : Track) : String :=
  t.album ++ "-" ++ t.artist

/-- First-occurrence album collection (the HashMap whose iteration
order is modelled as insertion order). -/
def collectAlbums : List Track → List String → List Album
  | [], _ => []
  | t :: rest, seen =>
    if seen.contains (albumKeyOf t) then collectAlbums rest seen
    else ⟨albumKeyOf t, t.album, t.artist, t.releaseYear, Option.none, []⟩
      :: collectAlbums rest (albumKeyOf t :: seen)

/-- First-occurrence artist collection keyed by artist name. -/
def collectArtists : List Track → List String → List Artist
  | [], _ => []
  | t :: rest, seen =>
    if seen.contains t.artist then collectArtists rest seen
    else ⟨t.artist, t.artist, []⟩ :: collectArtists rest (t.artist :: seen)

/-- `LocalMusicProvider::search_albums`: collect, score, drop
non-positive scores, sort descending, paginate. -/
def searchAlbumsP (fuzzy : String → String → Option Int) (tracks : List Track)
    (q : String) (limit offset : Nat) : List Album :=
  let scored := ((collectAlbums tracks []).map fun al =>
    (scoreAlbumMatch fuzzy al.title al.artist q, al)).filter fun p => p.1 > 0
  (((List.insertionSort scoreDesc scored).drop offset).take limit).map (·.2)

/-- `LocalMusicProvider::search_artists`. -/
def searchArtistsP (fuzzy : String → String → Option Int) (tracks : List Track)
    (q : String) (limit offset : Nat) : List Artist :=
  let scored := ((collectArtists tracks []).map fun ar =>
    (scoreArtistMatch fuzzy ar.name q, ar)).filter fun p => p.1 > 0
  (((List.insertionSort scoreDesc scored).drop offset).take limit).map (·.2)

/-- `LocalMusicProvider::search_all` over the provider's track list:
joins the three entity searches and wraps tracks as `PlayableItem`s
with provider `"local"` and the current time `now`.  The `weights`
argument is received exactly as in the source. -/
def searchAllP (fuzzy : String → String → Option Int) (tracks : List Track)
    (q : String) (weights : SearchWeights) (limit offset : Nat) (now : Nat) :
    SearchResults :=
  { tracks := (searchTracksP fuzzy tracks q limit offset).map fun t =>
      ⟨t, "local", now⟩
    albums := searchAlbumsP fuzzy tracks q limit offset
    artists := searchArtistsP fuzzy tracks q limit offset }

/-- `calculate_match_score` in `src/window.rs`: exact 100, prefix 75,
substring 50, else 0. -/
def calculateMatchScore (text q : String) : Int :=
  if text == q then 100
  else if strStarts text q then 75
  else if strContains text q then 50
  else 0

/-! ### Playback queue (`src/services/audio_player.rs`) -/

/-- `audio_player.rs` `Queue`. -/
structure Queue where
  tracks : List PlayableItem
  currentIndex : Option Nat
deriving DecidableEq

/-- `Queue::current_track` (the code indexes, which is in bounds at
every internal call site; out-of-range reads are `none` here). -/
def Queue.currentTrack (q : Queue) : Option Track :=
  q.currentIndex.bind fun i => (q.tracks[i]?).map (·.track)

/-- `Queue::next`: returns the new current track and the new queue. -/
def queueNext (q : Queue) : Option Track × Queue :=
  if q.tracks.isEmpty then (Option.none, q)
  else
    let idx :=
      match q.currentIndex with
      | some i => if i + 1 < q.tracks.length then i + 1 else 0
      | Option.none => 0
    let q' := { q with currentIndex := some idx }
    (q'.currentTrack, q')

/-- `Queue::previous`. -/
def queuePrev (q : Queue) : Option Track × Queue :=
  if q.tracks.isEmpty then (Option.none, q)
  else
    let idx :=
      match q.currentIndex with
      | some i => if i > 0 then i - 1 else q.tracks.length - 1
      | Option.none => q.tracks.length - 1
    let q' := { q with currentIndex := some idx }
    (q'.currentTrack, q')

/-! ### Aggregation (`src/services/manager.rs`) -/

/-- Lexicographic order on character lists (Rust `Ord` for lowered
strings; kernel-computable, unlike `String.le`). -/
def lexLe : List Char → List Char → Bool
  | [], _ => true
  | _ :: _, [] => false
  | a :: as, b :: bs => if a < b then true else if b < a then false else lexLe as bs

/-- Rust `Vec::dedup_by` tail: keep an element unless `eqb cur prev`
holds against the previously retained element. -/
def dedupGo (eqb : α → α → Bool) (prev : α) : List α → List α
  | [] => []
  | y :: ys => if eqb y prev then dedupGo eqb prev ys else y :: dedupGo eqb y ys

/-- Rust `Vec::dedup_by`: removes all but the first of consecutive
elements the relation identifies. -/
def dedupByKeep (eqb : α → α → Bool) : List α → List α
  | [] => []
  | x :: xs => x :: dedupGo eqb x xs

/-- The manager's artist sort order: ascending case-insensitive name. -/
def artistNameLe (a b : Artist) : Prop :=
  lexLe (toLowerS a.name).data (toLowerS b.name).data = true

instance : DecidableRel artistNameLe :=
  fun a b => inferInstanceAs (Decidable (_ = true))

/-- `ServiceManager::get_all_artists` over each provider's output (in
registration/iteration order): concatenate, sort by lowercase name,
`dedup_by` case-sensitive name equality. -/
def mgrGetAllArtists (perProvider : List (List Artist)) : List Artist :=
  dedupByKeep (fun a b => a.name == b.name)
    (List.insertionSort artistNameLe perProvider.flatten)

/-- The manager's album sort order: ascending on the tuple
(lowercase artist, lowercase title), lexicographically as Rust's tuple
`cmp`. -/
def albumKeyLe (a b : Album) : Prop :=
  (if (toLowerS a.artist).data = (toLowerS b.artist).data then
    lexLe (toLowerS a.title).data (toLowerS b.title).data
  else lexLe (toLowerS a.artist).data (toLowerS b.artist).data) = true

instance : DecidableRel albumKeyLe :=
  fun a b => inferInstanceAs (Decidable (_ = true))

/-- `ServiceManager::get_all_albums`: concatenate, sort by the pair
key, `dedup_by` case-sensitive (title, artist) equality. -/
def mgrGetAllAlbums (perProvider : List (List Album)) : List Album :=
  dedupByKeep (fun a b => a.title == b.title && a.artist == b.artist)
    (List.insertionSort albumKeyLe perProvider.flatten)

/-! ### Derived folds used to state the batch-insert theorems -/

/-- The artists table after running `ensure_artist` for each track. -/
def ensureArtistsFold (a : List ArtistRow) (ts : List Track) : List ArtistRow :=
  ts.foldl (fun acc t => ensureArtistTbl acc t.artist) a

/-- The albums table after running `ensure_album` for each track. -/
def ensureAlbumsFold (b : List AlbumRow) (ts : List Track) : List AlbumRow :=
  ts.foldl (fun acc t => ensureAlbumTbl acc t.album t.artist t.releaseYear) b

/-- The tracks table after buffering each `INSERT OR REPLACE`. -/
def insertTracksFold (tbl : List TrackRow) (ts : List Track) : List TrackRow :=
  ts.foldl (fun acc t => insertOrReplaceTrack acc (trackRowOf t)) tbl

/-! ### Concrete sample data for witnesses and counterexamples -/

/-- The empty catalog. -/
def db0 : Db := ⟨[], [], []⟩

/-- No artwork. -/
def noArt : Artwork := ⟨Option.none, ArtworkSource.none⟩

/-- A scan environment with no metadata. -/
def envT : ScanEnv :=
  ⟨fun _ => true, true, 7, [], Option.none, Option.none, Option.none, fun _ => false⟩

/-- A scan environment whose title tag and file size differ from
`envT`. -/
def envT2 : ScanEnv :=
  { envT with fileSize := 9, tags := [⟨some .trackTitle, "TIT2", "Song"⟩] }

/-- The track `process_file` extracts from `/music/a.mp3` under `envT`. -/
def trkA : Track :=
  ⟨sha1Hex "/music/a.mp3", "a", "Unknown Artist", "Unknown Album", 0,
    Option.none, Option.none, Option.none, Option.none, noArt,
    .localFile "mp3" 7 "/music/a.mp3"⟩

/-- The track extracted from the same path under `envT2`. -/
def trkB : Track :=
  ⟨sha1Hex "/music/a.mp3", "Song", "Unknown Artist", "Unknown Album", 0,
    Option.none, Option.none, Option.none, Option.none, noArt,
    .localFile "mp3" 9 "/music/a.mp3"⟩

/-- A stored track row of the album `LP 1` by `Band X`. -/
def rowT1 : TrackRow :=
  ⟨"t1", "One", "Band X", "LP 1", 100, Option.none, Option.none, Option.none,
    Option.none, "/m/1.mp3", "mp3", 1, Option.none, some ""⟩

/-- A second stored track row of the same album. -/
def rowT2 : TrackRow :=
  ⟨"t2", "Two", "Band X", "LP 1", 100, Option.none, Option.none, Option.none,
    Option.none, "/m/2.mp3", "mp3", 1, Option.none, some ""⟩

/-- The album row for `LP 1` by `Band X`. -/
def albLP : AlbumRow := ⟨"al1", "LP 1", "Band X", Option.none, Option.none, Option.none⟩

/-- The artist row for `Band X`. -/
def artBX : ArtistRow := ⟨"ar1", "Band X", Option.none, Option.none⟩

/-- A catalog with two tracks sharing one album and artist. -/
def dbTwo : Db := ⟨[rowT1, rowT2], [albLP], [artBX]⟩

/-- A catalog with a single track whose album and artist have no other
member. -/
def dbOne : Db := ⟨[rowT1], [albLP], [artBX]⟩

/-- A track with the sentinel artist but a real album. -/
def tUA : Track :=
  ⟨"idua", "Song", "Unknown Artist", "Cool Album", 0, Option.none, Option.none,
    Option.none, Option.none, noArt, .localFile "mp3" 1 "/m/ua.mp3"⟩

/-- A stored artist row with a non-sentinel name. -/
def artRH : ArtistRow := ⟨"ar2", "Radiohead", Option.none, Option.none⟩

/-- A catalog holding only the artist row `Radiohead`. -/
def dbRH : Db := ⟨[], [], [artRH]⟩

/-- The `DbArtist` record `get_all_artists` yields for `artRH`. -/
def dbArtistRH : DbArtist := ⟨"ar2", "Radiohead", [], some noArt⟩

/-- A track used as input to the failing batch insert. -/
def tBat : Track :=
  ⟨"idb", "T", "ArtistA", "AlbumB", 0, Option.none, Option.none, Option.none,
    Option.none, noArt, .localFile "mp3" 1 "/m/b.mp3"⟩

/-- A fuzzy matcher that matches nothing. -/
def fuzzyNone : String → String → Option Int := fun _ _ => Option.none

/-- A track with no textual relation to the query `"abc"`. -/
def tZZZ : Track :=
  ⟨"idz", "zzz", "yyy", "www", 0, Option.none, Option.none, Option.none,
    Option.none, noArt, .localFile "mp3" 1 "/m/z.mp3"⟩

/-- Two playable items for the queue samples. -/
def piA : PlayableItem := ⟨tZZZ, "local", 0⟩

/-- Second playable item. -/
def piB : PlayableItem := ⟨tUA, "local", 1⟩

/-- A two-item queue positioned at the last track. -/
def qAtLast : Queue := ⟨[piA, piB], some 1⟩

/-- A two-item queue positioned at the first track. -/
def qAtFirst : Queue := ⟨[piA, piB], some 0⟩

/-- The empty queue. -/
def qEmpty : Queue := ⟨[], Option.none⟩

/-- A snapshot in which no path exists. -/
def exNo : String → Bool := fun _ => false

/-- A snapshot in which every path exists. -/
def exYes : String → Bool := fun _ => true

/-- Artists whose names collide case-sensitively around a middle entry
of different case: `"B"`, `"b"`, `"B"`. -/
def arB1 : Artist := ⟨"1", "B", []⟩

/-- Lowercase-name artist between the two `"B"` entries. -/
def arb2 : Artist := ⟨"2", "b", []⟩

/-- Second artist named `"B"`. -/
def arB3 : Artist := ⟨"3", "B", []⟩

/-! ## Helper lemmas -/

/-- After `INSERT OR REPLACE`, the replaced key holds exactly the new
row. -/
theorem filter_insertOrReplace_self (tbl : List TrackRow) (row : TrackRow) :
    (insertOrReplaceTrack tbl row).filter (fun r => r.id == row.id) = [row] := by
  unfold insertOrReplaceTrack
  rw [List.filter_append, List.filter_filter]
  simp [bne]

/-- `INSERT OR REPLACE` of the same row twice equals doing it once. -/
theorem insertOrReplace_idem (tbl : List TrackRow) (row : TrackRow) :
    insertOrReplaceTrack (insertOrReplaceTrack tbl row) row =
      insertOrReplaceTrack tbl row := by
  unfold insertOrReplaceTrack
  rw [List.filter_append, List.filter_filter]
  simp

/-- `ensure_artist` is idempotent. -/
theorem ensureArtistTbl_idem (a : List ArtistRow) (name : String) :
    ensureArtistTbl (ensureArtistTbl a name) name = ensureArtistTbl a name := by
  by_cases h : a.any (fun x => x.id == sha1Hex name || x.name == name) = true
  · simp [ensureArtistTbl, h]
  · simp [ensureArtistTbl, h, List.any_append]

/-- `ensure_album` is idempotent. -/
theorem ensureAlbumTbl_idem (b : List AlbumRow) (title artist : String)
    (year : Option Nat) :
    ensureAlbumTbl (ensureAlbumTbl b title artist year) title artist year =
      ensureAlbumTbl b title artist year := by
  by_cases h : b.any (fun x => x.id == sha1Hex (title ++ ":" ++ artist)
      || (x.title == title && x.artist == artist)) = true
  · simp [ensureAlbumTbl, h]
  · simp [ensureAlbumTbl, h, List.any_append]

/-! ## C6 — pagination after full scoring and sorting -/

/-- C6: `LocalMusicProvider::search_tracks` applies `limit`/`offset`
strictly after scoring and sorting: the result is exactly the slice
`[offset, offset + limit)` of the complete descending ranking, and two
consecutive pages concatenate to one larger page with no overlap and no
gaps (in particular pages (5, 0) and (5, 5) form the top ten). -/
theorem c6_pagination_after_sort :
    ∀ (fuzzy : String → String → Option Int) (tracks : List Track) (q : String),
      (∀ limit offset, searchTracksP fuzzy tracks q limit offset =
        ((rankedTracks fuzzy tracks q).drop offset).take limit) ∧
      (∀ l₁ l₂ o, searchTracksP fuzzy tracks q l₁ o
          ++ searchTracksP fuzzy tracks q l₂ (o + l₁) =
        ((rankedTracks fuzzy tracks q).drop o).take (l₁ + l₂)) ∧
      searchTracksP fuzzy tracks q 5 0 ++ searchTracksP fuzzy tracks q 5 5 =
        searchTracksP fuzzy tracks q 10 0 := by
  intro fuzzy tracks q
  have h1 : ∀ limit offset, searchTracksP fuzzy tracks q limit offset =
      ((rankedTracks fuzzy tracks q).drop offset).take limit := by
    intro limit offset
    unfold searchTracksP rankedTracks
    rw [List.map_take, List.map_drop]
  have h2 : ∀ l₁ l₂ o, searchTracksP fuzzy tracks q l₁ o
      ++ searchTracksP fuzzy tracks q l₂ (o + l₁) =
      ((rankedTracks fuzzy tracks q).drop o).take (l₁ + l₂) := by
    intro l₁ l₂ o
    rw [h1, h1, List.take_add, ← List.drop_drop]
  refine ⟨h1, h2, ?_⟩
  have h3 := h2 5 5 0
  rw [h1 10 0]
  simpa using h3

/-! ## C7 — watcher event reclassification -/

/-- C7: the watcher closure suppresses a raw create for a vanished
path, reinterprets a raw modify for a vanished path as `Removed`,
always forwards removes, and emits `Created`/`Modified` for raw
create/modify on an existing path. -/
theorem c7_watcher_reclassification :
    ∀ (ex : String → Bool) (p : String),
      (ex p = false → classifyEvent ex .createKind p = Option.none) ∧
      (ex p = true → classifyEvent ex .createKind p = some (.created p)) ∧
      (ex p = false → classifyEvent ex .modifyKind p = some (.removed p)) ∧
      (ex p = true → classifyEvent ex .modifyKind p = some (.modified p)) ∧
      classifyEvent ex .removeKind p = some (.removed p) := by
  intro ex p
  refine ⟨fun h => ?_, fun h => ?_, fun h => ?_, fun h => ?_, rfl⟩ <;>
    simp [classifyEvent, h]

/-- Witness for C7 at concrete existence snapshots and path. -/
theorem c7_watcher_reclassification_witness :
    classifyEvent exNo .createKind "/w.mp3" = Option.none ∧
    classifyEvent exYes .createKind "/w.mp3" = some (.created "/w.mp3") ∧
    classifyEvent exNo .modifyKind "/w.mp3" = some (.removed "/w.mp3") ∧
    classifyEvent exYes .modifyKind "/w.mp3" = some (.modified "/w.mp3") ∧
    classifyEvent exNo .removeKind "/w.mp3" = some (.removed "/w.mp3") :=
  ⟨(c7_watcher_reclassification exNo "/w.mp3").1 rfl,
   (c7_watcher_reclassification exYes "/w.mp3").2.1 rfl,
   (c7_watcher_reclassification exNo "/w.mp3").2.2.1 rfl,
   (c7_watcher_reclassification exYes "/w.mp3").2.2.2.1 rfl,
   (c7_watcher_reclassification exNo "/w.mp3").2.2.2.2⟩

/-! ## C8 — search weights are never applied -/

/-- C8: the default weights are 1.0 each, but
`LocalMusicProvider::search_all` ignores its `weights` argument
entirely — the results are identical for any two weight values, so no
per-entity multiplier is ever applied to any score. -/
theorem c8_weights_never_applied :
    defaultSearchWeights = ⟨1, 1, 1⟩ ∧
    ∀ (fuzzy : String → String → Option Int) (tracks : List Track) (q : String)
      (w₁ w₂ : SearchWeights) (limit offset now : Nat),
      searchAllP fuzzy tracks q w₁ limit offset now =
        searchAllP fuzzy tracks q w₂ limit offset now :=
  ⟨rfl, fun _ _ _ _ _ _ _ _ => rfl⟩

/-! ## C9 — playback queue wraparound -/

/-- C9: on the empty queue, `next`/`previous` return `none` and change
nothing; on a non-empty queue, `next` advances by one and wraps to
index 0 from the last slot (or when no index is set), `previous` steps
back by one and wraps to the last slot from index 0 (or when no index
is set), and each returns the track now at the current index. -/
theorem c9_queue_wraparound :
    ∀ s : Queue,
      (s.tracks = [] → queueNext s = (Option.none, s) ∧ queuePrev s = (Option.none, s)) ∧
      (s.tracks ≠ [] →
        ((queueNext s).2.tracks = s.tracks ∧ (queuePrev s).2.tracks = s.tracks) ∧
        (∀ i, s.currentIndex = some i → i + 1 < s.tracks.length →
          (queueNext s).2.currentIndex = some (i + 1) ∧
          (queueNext s).1 = (s.tracks[i + 1]?).map (·.track)) ∧
        ((s.currentIndex = Option.none ∨
            (∃ i, s.currentIndex = some i ∧ ¬ i + 1 < s.tracks.length)) →
          (queueNext s).2.currentIndex = some 0 ∧
          (queueNext s).1 = (s.tracks[0]?).map (·.track)) ∧
        (∀ i, s.currentIndex = some i → 0 < i →
          (queuePrev s).2.currentIndex = some (i - 1) ∧
          (queuePrev s).1 = (s.tracks[i - 1]?).map (·.track)) ∧
        ((s.currentIndex = Option.none ∨ s.currentIndex = some 0) →
          (queuePrev s).2.currentIndex = some (s.tracks.length - 1) ∧
          (queuePrev s).1 = (s.tracks[s.tracks.length - 1]?).map (·.track))) := by
  intro s
  constructor
  · intro h
    have he : s.tracks.isEmpty = true := List.isEmpty_iff.mpr h
    constructor <;> simp [queueNext, queuePrev, he]
  · intro h
    have he : s.tracks.isEmpty = false := by
      cases hl : s.tracks with
      | nil => exact absurd hl h
      | cons a l => rfl
    refine ⟨⟨?_, ?_⟩, ?_, ?_, ?_, ?_⟩
    · simp [queueNext, he]
    · simp [queuePrev, he]
    · intro i hi hlt
      simp [queueNext, he, hi, hlt, Queue.currentTrack]
    · rintro (hn | ⟨i, hi, hge⟩)
      · simp [queueNext, he, hn, Queue.currentTrack]
      · simp [queueNext, he, hi, hge, Queue.currentTrack]
    · intro i hi hpos
      simp [queuePrev, he, hi, hpos, Queue.currentTrack]
    · rintro (hn | h0)
      · simp [queuePrev, he, hn, Queue.currentTrack]
      · simp [queuePrev, he, h0, Queue.currentTrack]

/-- Witness for C9: empty queue, wrap forward from the last slot, wrap
backward from the first slot. -/
theorem c9_queue_wraparound_witness :
    (queueNext qEmpty = (Option.none, qEmpty) ∧ queuePrev qEmpty = (Option.none, qEmpty)) ∧
    ((queueNext qAtLast).2.currentIndex = some 0 ∧
      (queueNext qAtLast).1 = (qAtLast.tracks[0]?).map (·.track)) ∧
    ((queuePrev qAtFirst).2.currentIndex = some (qAtFirst.tracks.length - 1) ∧
      (queuePrev qAtFirst).1 = (qAtFirst.tracks[qAtFirst.tracks.length - 1]?).map (·.track)) :=
  ⟨(c9_queue_wraparound qEmpty).1 rfl,
   (((c9_queue_wraparound qAtLast).2 (by decide)).2.2.1)
     (Or.inr ⟨1, rfl, by decide⟩),
   (((c9_queue_wraparound qAtFirst).2 (by decide)).2.2.2.2) (Or.inr rfl)⟩

/-- Unrolling `batch_insert_tracks` when the `j`-th remaining track's
insert statement faults: the buffered track writes are discarded, the
ensures already committed remain. -/
theorem batchRunGo_fail :
    ∀ (ts : List Track) (committed : Db) (txT : List TrackRow) (n j : Nat),
      j < ts.length →
      batchRunGo (some (n + j)) committed txT ts n =
        (false, ⟨committed.tracks,
          ensureAlbumsFold committed.albums (ts.take (j + 1)),
          ensureArtistsFold committed.artists (ts.take (j + 1))⟩) := by
  intro ts
  induction ts with
  | nil => intro _ _ n j hj; simp at hj
  | cons t rest ih =>
    intro committed txT n j hj
    cases j with
    | zero =>
      simp [batchRunGo, ensureAlbumsFold, ensureArtistsFold]
    | succ j' =>
      have hne : ¬ (some (n + (j' + 1)) = some n) := by
        simp
      have hidx : n + (j' + 1) = (n + 1) + j' := by omega
      rw [show batchRunGo (some (n + (j' + 1))) committed txT (t :: rest) n =
        batchRunGo (some (n + (j' + 1)))
          { committed with
              albums := ensureAlbumTbl committed.albums t.album t.artist t.releaseYear,
              artists := ensureArtistTbl committed.artists t.artist }
          (insertOrReplaceTrack txT (trackRowOf t)) rest (n + 1) by
        simp [batchRunGo, hne]]
      rw [hidx, ih _ _ (n + 1) j' (by simpa using hj)]
      simp [ensureAlbumsFold, ensureArtistsFold]

/-- Unrolling `batch_insert_tracks` without a fault. -/
theorem batchRunGo_success :
    ∀ (ts : List Track) (committed : Db) (txT : List TrackRow) (n : Nat),
      batchRunGo Option.none committed txT ts n =
        (true, ⟨insertTracksFold txT ts,
          ensureAlbumsFold committed.albums ts,
          ensureArtistsFold committed.artists ts⟩) := by
  intro ts
  induction ts with
  | nil =>
    intro committed txT n
    simp [batchRunGo, insertTracksFold, ensureAlbumsFold, ensureArtistsFold]
  | cons t rest ih =>
    intro committed txT n
    rw [show batchRunGo Option.none committed txT (t :: rest) n =
      batchRunGo Option.none
        { committed with
            albums := ensureAlbumTbl committed.albums t.album t.artist t.releaseYear,
            artists := ensureArtistTbl committed.artists t.artist }
        (insertOrReplaceTrack txT (trackRowOf t)) rest (n + 1) by
      simp [batchRunGo]]
    rw [ih]
    simp [insertTracksFold, ensureAlbumsFold, ensureArtistsFold]

/-- Sequential `insert_track` decomposes into the three table folds. -/
theorem foldl_insertTrack_components :
    ∀ (ts : List Track) (db : Db),
      ts.foldl insertTrack db =
        ⟨insertTracksFold db.tracks ts,
          ensureAlbumsFold db.albums ts,
          ensureArtistsFold db.artists ts⟩ := by
  intro ts
  induction ts with
  | nil => intro db; simp [insertTracksFold, ensureAlbumsFold, ensureArtistsFold]
  | cons t rest ih =>
    intro db
    rw [List.foldl_cons, ih]
    simp [insertTrack, insertTracksFold, ensureAlbumsFold, ensureArtistsFold]

/-! ## C1 — deterministic track identity and idempotent upsert -/

/-- Whatever the environment, a successful extraction assigns the SHA-1
of the source path as the id. -/
theorem processFile_ok_id (env : ScanEnv) (p : String) (t : Track) :
    processFile env p = .ok t → t.id = sha1Hex p := by
  unfold processFile
  split
  · intro h; cases h
  · split
    · intro h; cases h
    · intro h; cases h; rfl

/-- C1: extraction id is a function of the path alone (any two
successful extractions of one path agree on it); re-inserting a track
with the same id leaves exactly one row for that id, the second insert
replacing the first; and `insert_track` of the same track twice equals
doing it once. -/
theorem c1_track_identity_idempotent_upsert :
    (∀ (env₁ env₂ : ScanEnv) (p : String) (t₁ t₂ : Track),
      processFile env₁ p = .ok t₁ → processFile env₂ p = .ok t₂ → t₁.id = t₂.id) ∧
    (∀ (db : Db) (t₁ t₂ : Track), t₁.id = t₂.id →
      (insertTrack (insertTrack db t₁) t₂).tracks.filter
        (fun r => r.id == t₂.id) = [trackRowOf t₂]) ∧
    (∀ (db : Db) (t₁ t₂ : Track), t₁.id = t₂.id →
      (batchInsertTracks db [t₁, t₂]).tracks.filter
        (fun r => r.id == t₂.id) = [trackRowOf t₂]) ∧
    (∀ (db : Db) (t : Track), insertTrack (insertTrack db t) t = insertTrack db t) := by
  refine ⟨?_, ?_, ?_, ?_⟩
  · intro env₁ env₂ p t₁ t₂ h₁ h₂
    rw [processFile_ok_id env₁ p t₁ h₁, processFile_ok_id env₂ p t₂ h₂]
  · intro db t₁ t₂ _
    exact filter_insertOrReplace_self _ (trackRowOf t₂)
  · intro db t₁ t₂ _
    unfold batchInsertTracks batchInsertTracksRun
    rw [batchRunGo_success]
    show (insertTracksFold db.tracks [t₁, t₂]).filter _ = _
    unfold insertTracksFold
    rw [List.foldl_cons, List.foldl_cons, List.foldl_nil]
    exact filter_insertOrReplace_self _ (trackRowOf t₂)
  · intro db t
    unfold insertTrack
    simp only
    rw [insertOrReplace_idem, ensureArtistTbl_idem, ensureAlbumTbl_idem]

/-- Witness for C1: two different environments extract `/music/a.mp3`
to different tracks with the same id, and re-inserting under that id
leaves the single replaced row. -/
theorem c1_track_identity_idempotent_upsert_witness :
    trkA.id = trkB.id ∧
    (insertTrack (insertTrack db0 trkA) trkB).tracks.filter
      (fun r => r.id == trkB.id) = [trackRowOf trkB] ∧
    (batchInsertTracks db0 [trkA, trkB]).tracks.filter
      (fun r => r.id == trkB.id) = [trackRowOf trkB] ∧
    insertTrack (insertTrack db0 trkA) trkA = insertTrack db0 trkA :=
  ⟨c1_track_identity_idempotent_upsert.1 envT envT2 "/music/a.mp3" trkA trkB rfl rfl,
   c1_track_identity_idempotent_upsert.2.1 db0 trkA trkB rfl,
   c1_track_identity_idempotent_upsert.2.2.1 db0 trkA trkB rfl,
   c1_track_identity_idempotent_upsert.2.2.2 db0 trkA⟩

/-! ## C2 — delete-by-path with orphan cleanup -/

/-- Shape of `remove_track_by_path` when a row matches the path. -/
theorem removeTrack_some (db : Db) (p : String) (r : TrackRow)
    (h : db.tracks.find? (fun x => x.filePath == p) = some r) :
    removeTrackByPath db p =
      ⟨db.tracks.filter (fun x => x.filePath != p),
        if (db.tracks.filter (fun x => x.filePath != p)).countP
            (fun tr => tr.album == r.album && tr.artist == r.artist) = 0 then
          db.albums.filter (fun a => !(a.title == r.album && a.artist == r.artist))
        else db.albums,
        if (db.tracks.filter (fun x => x.filePath != p)).countP
            (fun tr => tr.artist == r.artist) = 0 then
          db.artists.filter (fun a => a.name != r.artist)
        else db.artists⟩ := by
  unfold removeTrackByPath
  rw [h]

/-- The tracks table after `remove_track_by_path` in every case. -/
theorem removeTrack_tracks (db : Db) (p : String) :
    (removeTrackByPath db p).tracks = db.tracks.filter (fun x => x.filePath != p) := by
  unfold removeTrackByPath
  cases h : db.tracks.find? (fun x => x.filePath == p) <;> rfl

/-- C2: after `remove_track_by_path` no stored row has the given path;
a path matching no row is a no-op returning success; and when a row
matches, the matched row's album row survives exactly when member
tracks of its (album, artist) remain, its artist row exactly when
tracks by that artist remain. -/
theorem c2_delete_by_path_orphan_cleanup (db : Db) (p : String) :
    ((removeTrackByPath db p).tracks = db.tracks.filter (fun x => x.filePath != p)) ∧
    (∀ r ∈ (removeTrackByPath db p).tracks, r.filePath ≠ p) ∧
    (db.tracks.find? (fun x => x.filePath == p) = Option.none →
      removeTrackByPath db p = db) ∧
    (∀ r, db.tracks.find? (fun x => x.filePath == p) = some r →
      (((removeTrackByPath db p).tracks.countP
          (fun tr => tr.album == r.album && tr.artist == r.artist) = 0 →
        ∀ al ∈ db.albums, (al ∈ (removeTrackByPath db p).albums ↔
          ¬(al.title = r.album ∧ al.artist = r.artist))) ∧
       ((removeTrackByPath db p).tracks.countP
          (fun tr => tr.album == r.album && tr.artist == r.artist) ≠ 0 →
        (removeTrackByPath db p).albums = db.albums)) ∧
      (((removeTrackByPath db p).tracks.countP (fun tr => tr.artist == r.artist) = 0 →
        ∀ ar ∈ db.artists, (ar ∈ (removeTrackByPath db p).artists ↔ ar.name ≠ r.artist)) ∧
       ((removeTrackByPath db p).tracks.countP (fun tr => tr.artist == r.artist) ≠ 0 →
        (removeTrackByPath db p).artists = db.artists))) := by
  refine ⟨removeTrack_tracks db p, ?_, ?_, ?_⟩
  · intro r hr
    rw [removeTrack_tracks] at hr
    exact bne_iff_ne.mp (List.mem_filter.mp hr).2
  · intro h
    have hall : ∀ x ∈ db.tracks, (x.filePath != p) = true := by
      intro x hx
      have := List.find?_eq_none.mp h x hx
      simpa [bne] using this
    unfold removeTrackByPath
    rw [h, List.filter_eq_self.mpr hall]
  · intro r h
    rw [removeTrack_some db p r h]
    dsimp only
    constructor
    · constructor
      · intro hz al hal
        simp only [hz, if_pos]
        rw [List.mem_filter]
        constructor
        · rintro ⟨-, hb⟩ ⟨h1, h2⟩
          simp [h1, h2] at hb
        · intro hne
          refine ⟨hal, ?_⟩
          by_cases h1 : al.title = r.album <;> by_cases h2 : al.artist = r.artist <;>
            simp [h1, h2] at hne ⊢
      · intro hnz
        simp only [if_neg hnz]
    · constructor
      · intro hz ar har
        simp only [hz, if_pos]
        rw [List.mem_filter]
        constructor
        · rintro ⟨-, hb⟩
          exact bne_iff_ne.mp hb
        · intro hne
          exact ⟨har, bne_iff_ne.mpr hne⟩
      · intro hnz
        simp only [if_neg hnz]

/-- Witness for C2: in a two-track album, deleting one track keeps the
album and artist rows; with the sole remaining track deleted, both rows
are pruned; an unmatched path leaves the catalog unchanged. -/
theorem c2_delete_by_path_orphan_cleanup_witness :
    (removeTrackByPath dbTwo "/m/1.mp3").tracks =
      dbTwo.tracks.filter (fun x => x.filePath != "/m/1.mp3") ∧
    rowT2.filePath ≠ "/m/1.mp3" ∧
    (removeTrackByPath dbTwo "/m/1.mp3").albums = dbTwo.albums ∧
    (removeTrackByPath dbTwo "/m/1.mp3").artists = dbTwo.artists ∧
    ¬ albLP ∈ (removeTrackByPath dbOne "/m/1.mp3").albums ∧
    ¬ artBX ∈ (removeTrackByPath dbOne "/m/1.mp3").artists ∧
    removeTrackByPath dbTwo "/nope" = dbTwo := by
  refine ⟨?_, ?_, ?_, ?_, ?_, ?_, ?_⟩
  · exact (c2_delete_by_path_orphan_cleanup dbTwo "/m/1.mp3").1
  · exact (c2_delete_by_path_orphan_cleanup dbTwo "/m/1.mp3").2.1 rowT2 (by decide)
  · exact ((((c2_delete_by_path_orphan_cleanup dbTwo "/m/1.mp3").2.2.2 rowT1
      (by decide)).1.2) (by decide))
  · exact ((((c2_delete_by_path_orphan_cleanup dbTwo "/m/1.mp3").2.2.2 rowT1
      (by decide)).2.2) (by decide))
  · intro hmem
    have := ((((c2_delete_by_path_orphan_cleanup dbOne "/m/1.mp3").2.2.2 rowT1
      (by decide)).1.1) (by decide)) albLP (by decide)
    exact (this.mp hmem) (by decide)
  · intro hmem
    have := ((((c2_delete_by_path_orphan_cleanup dbOne "/m/1.mp3").2.2.2 rowT1
      (by decide)).2.1) (by decide)) artBX (by decide)
    exact absurd (by decide : artBX.name = rowT1.artist) (this.mp hmem)
  · exact (c2_delete_by_path_orphan_cleanup dbTwo "/nope").2.2.1 (by decide)

/-! ## C3 — sentinel exclusion -/

/-- Counterexample to C3 as stated: a track whose artist is the
sentinel `"Unknown Artist"` but whose album is real contributes an
album row that `get_all_albums` does surface (the query filters only
`title != 'Unknown Album'`). -/
theorem c3_sentinel_counterexample :
    tUA.artist = "Unknown Artist" ∧
    getAllAlbums db0 = [] ∧
    ((getAllAlbums (insertTrack db0 tUA)).map fun a => (a.title, a.artist)) =
      [("Cool Album", "Unknown Artist")] :=
  ⟨rfl, rfl, by decide⟩

/-- C3 (amended): artist rows named `"Unknown Artist"` never appear in
`get_all_artists`/`search_artists`, album rows titled `"Unknown Album"`
never appear in `get_all_albums`/`search_albums`, and an inserted track
always appears in `get_all_tracks` — but a track with only one
sentinel field still contributes its non-sentinel album or artist row
to the other entity's queries. -/
theorem c3_sentinel_exclusion_amended :
    ∀ (db : Db) (q : String) (l o : Nat),
      (∀ a ∈ getAllArtists db, a.name ≠ "Unknown Artist") ∧
      (∀ a ∈ searchArtists db q l o, a.name ≠ "Unknown Artist") ∧
      (∀ al ∈ getAllAlbums db, al.title ≠ "Unknown Album") ∧
      (∀ al ∈ searchAlbums db q l o, al.title ≠ "Unknown Album") ∧
      (∀ t : Track, trackOfRow (trackRowOf t) ∈ getAllTracks (insertTrack db t)) := by
  intro db q l o
  refine ⟨?_, ?_, ?_, ?_, ?_⟩
  · intro a ha
    obtain ⟨x, hx, hfa⟩ := List.mem_map.mp ha
    have hname : a.name = x.name := by rw [← hfa]
    rw [hname]
    exact bne_iff_ne.mp (List.mem_filter.mp hx).2
  · intro a ha
    obtain ⟨x, hx, hfa⟩ := List.mem_map.mp ha
    have hx' := ((List.take_sublist _ _).trans (List.drop_sublist _ _)).subset hx
    have hp := (List.mem_filter.mp hx').2
    rw [Bool.and_eq_true] at hp
    have hname : a.name = x.name := by rw [← hfa]
    rw [hname]
    exact bne_iff_ne.mp hp.2
  · intro al hal
    obtain ⟨x, hx, hfa⟩ := List.mem_map.mp hal
    have htitle : al.title = x.title := by rw [← hfa]
    rw [htitle]
    exact bne_iff_ne.mp (List.mem_filter.mp hx).2
  · intro al hal
    obtain ⟨x, hx, hfa⟩ := List.mem_map.mp hal
    have hx' := ((List.take_sublist _ _).trans (List.drop_sublist _ _)).subset hx
    have hp := (List.mem_filter.mp hx').2
    rw [Bool.and_eq_true] at hp
    have htitle : al.title = x.title := by rw [← hfa]
    rw [htitle]
    exact bne_iff_ne.mp hp.2
  · intro t
    unfold getAllTracks insertTrack insertOrReplaceTrack
    exact List.mem_map.mpr
      ⟨trackRowOf t, List.mem_append.mpr (Or.inr (List.mem_cons_self _ _)), rfl⟩

/-- Witness for C3 (amended) at a concrete catalog. -/
theorem c3_sentinel_exclusion_amended_witness :
    dbArtistRH.name ≠ "Unknown Artist" ∧
    trackOfRow (trackRowOf tUA) ∈ getAllTracks (insertTrack dbRH tUA) :=
  ⟨(c3_sentinel_exclusion_amended dbRH "Radio" 5 0).1 dbArtistRH (by decide),
   (c3_sentinel_exclusion_amended dbRH "Radio" 5 0).2.2.2.2 tUA⟩

/-! ## C4 — batch upsert atomicity -/

/-- Counterexample to C4 as stated: a batch of one track whose insert
statement faults returns an error, yet the artists table has gained the
ensured row — the catalog state is not unchanged. -/
theorem c4_batch_atomicity_counterexample :
    (batchInsertTracksRun db0 [tBat] (some 0)).1 = false ∧
    (batchInsertTracksRun db0 [tBat] (some 0)).2.tracks = db0.tracks ∧
    (batchInsertTracksRun db0 [tBat] (some 0)).2.artists.length = 1 ∧
    db0.artists.length = 0 ∧
    (batchInsertTracksRun db0 [tBat] (some 0)).2 ≠ db0 :=
  ⟨by decide, by decide, by decide, rfl,
   fun hEq => absurd (congrArg (fun d => d.artists.length) hEq) (by decide)⟩

/-- C4 (amended): the tracks table is all-or-nothing — on an error no
track write is committed, and on success every row is applied — but
the artist/album rows ensured for the tracks processed up to and
including the failing one are committed in their own transactions and
persist after the error. -/
theorem c4_batch_atomicity_amended :
    (∀ (db : Db) (ts : List Track) (i : Nat), i < ts.length →
      (batchInsertTracksRun db ts (some i)).1 = false ∧
      (batchInsertTracksRun db ts (some i)).2.tracks = db.tracks ∧
      (batchInsertTracksRun db ts (some i)).2.albums =
        ensureAlbumsFold db.albums (ts.take (i + 1)) ∧
      (batchInsertTracksRun db ts (some i)).2.artists =
        ensureArtistsFold db.artists (ts.take (i + 1))) ∧
    (∀ (db : Db) (ts : List Track),
      batchInsertTracksRun db ts Option.none = (true, ts.foldl insertTrack db)) := by
  constructor
  · intro db ts i hi
    unfold batchInsertTracksRun
    rw [show (some i : Option Nat) = some (0 + i) by rw [Nat.zero_add],
      batchRunGo_fail ts db db.tracks 0 i hi]
    exact ⟨rfl, rfl, rfl, rfl⟩
  · intro db ts
    unfold batchInsertTracksRun
    rw [batchRunGo_success, foldl_insertTrack_components]

/-- Witness for C4 (amended) on the one-track faulting batch. -/
theorem c4_batch_atomicity_amended_witness :
    (batchInsertTracksRun db0 [tBat] (some 0)).1 = false ∧
    (batchInsertTracksRun db0 [tBat] (some 0)).2.tracks = db0.tracks ∧
    (batchInsertTracksRun db0 [tBat] (some 0)).2.albums =
      ensureAlbumsFold db0.albums ([tBat].take (0 + 1)) ∧
    (batchInsertTracksRun db0 [tBat] (some 0)).2.artists =
      ensureArtistsFold db0.artists ([tBat].take (0 + 1)) :=
  c4_batch_atomicity_amended.1 db0 [tBat] 0 (by decide)

/-! ## C5 — ranking monotonicity and zero-score exclusion -/

/-- C5: for query `"abc"`, `calculate_match_score` ranks an exact title
strictly above a prefix title, a prefix strictly above a substring, and
a substring above nothing; and in `search_tracks` a candidate with no
fuzzy match and no containment match on any query word is excluded from
the result entirely. -/
theorem c5_ranking_monotonicity_exclusion :
    calculateMatchScore "abc" "abc" > calculateMatchScore "abcdef" "abc" ∧
    calculateMatchScore "abcdef" "abc" > calculateMatchScore "xabcx" "abc" ∧
    calculateMatchScore "xabcx" "abc" > 0 ∧
    (∀ (fuzzy : String → String → Option Int) (tracks : List Track) (q : String)
        (limit offset : Nat) (t : Track),
      (∀ w ∈ queryWordsOf q,
        fuzzy t.title w = Option.none ∧ fuzzy t.artist w = Option.none ∧
        fuzzy t.album w = Option.none ∧
        strContains (toLowerS t.title) w = false ∧
        strContains (toLowerS t.artist) w = false ∧
        strContains (toLowerS t.album) w = false) →
      t ∉ searchTracksP fuzzy tracks q limit offset) := by
  refine ⟨by decide, by decide, by decide, ?_⟩
  intro fuzzy tracks q limit offset t hno hmem
  unfold searchTracksP at hmem
  obtain ⟨pr, hpr, hprt⟩ := List.mem_map.mp hmem
  have h1 : pr ∈ sortedScored fuzzy tracks q :=
    ((List.take_sublist _ _).trans (List.drop_sublist _ _)).subset hpr
  unfold sortedScored at h1
  have h2 : pr ∈ scoredCandidates fuzzy tracks q :=
    (List.perm_insertionSort scoreDesc _).mem_iff.mp h1
  unfold scoredCandidates at h2
  obtain ⟨t', ht', heq⟩ := List.mem_filterMap.mp h2
  by_cases hc : trackTotalScore fuzzy (queryWordsOf q) t' > 0 ∨
      matchedWords (queryWordsOf q) t' > 0
  · rw [if_pos hc] at heq
    have hpr' : pr = (trackTotalScore fuzzy (queryWordsOf q) t', t') :=
      (Option.some_inj.mp heq).symm
    have ht2 : t' = t := by rw [← hprt, hpr']
    subst ht2
    have hm : matchedWords (queryWordsOf q) t' = 0 := by
      unfold matchedWords
      apply List.countP_eq_zero.mpr
      intro w hw
      obtain ⟨-, -, -, c1, c2, c3⟩ := hno w hw
      simp [c1, c2, c3]
    have hs : trackTotalScore fuzzy (queryWordsOf q) t' = 0 := by
      unfold trackTotalScore
      rw [hm]
      simp only [gt_iff_lt, lt_irrefl, if_false, add_zero]
      apply List.sum_eq_zero
      intro x hx
      obtain ⟨w, hw, rfl⟩ := List.mem_map.mp hx
      obtain ⟨f1, f2, f3, c1, c2, c3⟩ := hno w hw
      unfold wordScore
      rw [f1, f2, f3]
      simp [c1, c2, c3]
    rcases hc with h | h
    · rw [hs] at h
      exact lt_irrefl 0 h
    · rw [hm] at h
      exact lt_irrefl 0 h
  · rw [if_neg hc] at heq
    cases heq

/-- Witness for C5's exclusion on a concrete unmatched track. -/
theorem c5_ranking_monotonicity_exclusion_witness :
    tZZZ ∉ searchTracksP fuzzyNone [tZZZ] "abc" 10 0 :=
  c5_ranking_monotonicity_exclusion.2.2.2 fuzzyNone [tZZZ] "abc" 10 0 tZZZ
    (by decide)

/-! ## C10 — aggregated browse results -/

/-- `lexLe` is total. -/
theorem lexLe_total : ∀ x y : List Char, lexLe x y = true ∨ lexLe y x = true := by
  intro x
  induction x with
  | nil => intro y; left; rfl
  | cons a as ih =>
    intro y
    cases y with
    | nil => right; rfl
    | cons b bs =>
      rcases lt_trichotomy a b with h | h | h
      · left; simp [lexLe, h]
      · subst h
        rcases ih bs with h' | h'
        · left; simp [lexLe, lt_irrefl, h']
        · right; simp [lexLe, lt_irrefl, h']
      · right; simp [lexLe, h]

/-- `lexLe` is transitive. -/
theorem lexLe_trans :
    ∀ x y z : List Char, lexLe x y = true → lexLe y z = true → lexLe x z = true := by
  intro x
  induction x with
  | nil => intro y z _ _; rfl
  | cons a as ih =>
    intro y z hxy hyz
    cases y with
    | nil => simp [lexLe] at hxy
    | cons b bs =>
      cases z with
      | nil => simp [lexLe] at hyz
      | cons c cs =>
        by_cases hab : a < b
        · by_cases hbc : b < c
          · simp [lexLe, lt_trans hab hbc]
          · by_cases hcb : c < b
            · simp [lexLe, hbc, hcb] at hyz
            · have hbc' : b = c := le_antisymm (not_lt.mp hcb) (not_lt.mp hbc)
              subst hbc'
              simp [lexLe, hab]
        · by_cases hba : b < a
          · simp [lexLe, hab, hba] at hxy
          · have hab' : a = b := le_antisymm (not_lt.mp hba) (not_lt.mp hab)
            subst hab'
            simp only [lexLe, lt_irrefl, if_false] at hxy
            by_cases hac : a < c
            · simp [lexLe, hac]
            · by_cases hca : c < a
              · simp [lexLe, hac, hca] at hyz
              · have hac' : a = c := le_antisymm (not_lt.mp hca) (not_lt.mp hac)
                subst hac'
                simp only [lexLe, lt_irrefl, if_false] at hyz ⊢
                exact ih bs cs hxy hyz

/-- `lexLe` is antisymmetric. -/
theorem lexLe_antisymm :
    ∀ x y : List Char, lexLe x y = true → lexLe y x = true → x = y := by
  intro x
  induction x with
  | nil =>
    intro y h1 h2
    cases y with
    | nil => rfl
    | cons b bs => simp [lexLe] at h2
  | cons a as ih =>
    intro y h1 h2
    cases y with
    | nil => simp [lexLe] at h1
    | cons b bs =>
      by_cases hab : a < b
      · simp [lexLe, hab, asymm hab] at h2
      · by_cases hba : b < a
        · simp [lexLe, hab, hba] at h1
        · have hab' : a = b := le_antisymm (not_lt.mp hba) (not_lt.mp hab)
          subst hab'
          simp only [lexLe, lt_irrefl, if_false] at h1 h2
          rw [ih bs h1 h2]

instance : IsTotal Artist artistNameLe :=
  ⟨fun a b => lexLe_total (toLowerS a.name).data (toLowerS b.name).data⟩

instance : IsTrans Artist artistNameLe :=
  ⟨fun _ _ _ h1 h2 => lexLe_trans _ _ _ h1 h2⟩

instance : IsTotal Album albumKeyLe := by
  refine ⟨fun a b => ?_⟩
  unfold albumKeyLe
  by_cases h : (toLowerS a.artist).data = (toLowerS b.artist).data
  · rw [if_pos h, if_pos h.symm]
    exact lexLe_total _ _
  · rw [if_neg h, if_neg (Ne.symm h)]
    exact lexLe_total _ _

instance : IsTrans Album albumKeyLe := by
  refine ⟨fun a b c h1 h2 => ?_⟩
  unfold albumKeyLe at h1 h2 ⊢
  by_cases hab : (toLowerS a.artist).data = (toLowerS b.artist).data
  · by_cases hbc : (toLowerS b.artist).data = (toLowerS c.artist).data
    · rw [if_pos hab] at h1
      rw [if_pos hbc] at h2
      rw [if_pos (hab.trans hbc)]
      exact lexLe_trans _ _ _ h1 h2
    · rw [if_pos hab] at h1
      rw [if_neg hbc] at h2
      rw [if_neg (show (toLowerS a.artist).data ≠ (toLowerS c.artist).data by
        rw [hab]; exact hbc), hab]
      exact h2
  · by_cases hbc : (toLowerS b.artist).data = (toLowerS c.artist).data
    · rw [if_neg hab] at h1
      rw [if_neg (show (toLowerS a.artist).data ≠ (toLowerS c.artist).data by
        rw [← hbc]; exact hab), ← hbc]
      exact h1
    · rw [if_neg hab] at h1
      rw [if_neg hbc] at h2
      by_cases hac : (toLowerS a.artist).data = (toLowerS c.artist).data
      · exact absurd (lexLe_antisymm _ _ h1 (by rw [hac]; exact h2)) hab
      · rw [if_neg hac]
        exact lexLe_trans _ _ _ h1 h2

/-- `dedupGo` yields a sublist of its input. -/
theorem dedupGo_sublist {α : Type} (eqb : α → α → Bool) :
    ∀ (l : List α) (prev : α), (dedupGo eqb prev l).Sublist l := by
  intro l
  induction l with
  | nil => intro prev; simp [dedupGo]
  | cons y ys ih =>
    intro prev
    by_cases h : eqb y prev = true
    · rw [dedupGo, if_pos h]
      exact (ih prev).cons y
    · rw [dedupGo, if_neg h]
      exact (ih y).cons₂ y

/-- `dedup_by` yields a sublist of its input. -/
theorem dedupByKeep_sublist {α : Type} (eqb : α → α → Bool) (l : List α) :
    (dedupByKeep eqb l).Sublist l := by
  cases l with
  | nil => simp [dedupByKeep]
  | cons x xs =>
    rw [dedupByKeep]
    exact (dedupGo_sublist eqb xs x).cons₂ x

/-- Every retained element differs (under `eqb`) from the previously
retained one. -/
theorem chain_dedupGo {α : Type} (eqb : α → α → Bool) :
    ∀ (l : List α) (prev : α),
      List.Chain (fun a b => eqb b a = false) prev (dedupGo eqb prev l) := by
  intro l
  induction l with
  | nil => intro prev; rw [dedupGo]; exact List.Chain.nil
  | cons y ys ih =>
    intro prev
    by_cases h : eqb y prev = true
    · rw [dedupGo, if_pos h]
      exact ih prev
    · rw [dedupGo, if_neg h]
      exact List.Chain.cons (by simpa using h) (ih y)

/-- Consecutive elements of a `dedup_by` result are distinct under
`eqb`. -/
theorem chain'_dedupByKeep {α : Type} (eqb : α → α → Bool) (l : List α) :
    List.Chain' (fun a b => eqb b a = false) (dedupByKeep eqb l) := by
  cases l with
  | nil => rw [dedupByKeep]; trivial
  | cons x xs =>
    rw [dedupByKeep]
    exact chain_dedupGo eqb xs x

/-- Counterexample to C10 as stated: the aggregate `["B", "b", "B"]`
sorts to itself (equal case-insensitive keys, stable) and `dedup_by`
only removes consecutive equal names, so two entries named `"B"`
survive. -/
theorem c10_aggregation_counterexample :
    mgrGetAllArtists [[arB1, arb2, arB3]] = [arB1, arb2, arB3] ∧
    arB1.name = arB3.name ∧
    ¬ List.Pairwise (fun a b : Artist => a.name ≠ b.name)
      (mgrGetAllArtists [[arB1, arb2, arB3]]) :=
  ⟨by decide, rfl, by decide⟩

/-- C10 (amended): the aggregated artist list is sorted ascending by
case-insensitive name and no two *consecutive* entries share a
case-sensitive name; the aggregated album list is sorted ascending by
the (case-insensitive artist, case-insensitive title) pair and no two
consecutive entries share a (title, artist) pair.  Entries with equal
names may still both survive when an entry of different case but equal
lowercase sits between them. -/
theorem c10_aggregation_amended :
    ∀ (pa : List (List Artist)) (pb : List (List Album)),
      List.Sorted artistNameLe (mgrGetAllArtists pa) ∧
      List.Chain' (fun a b => a.name ≠ b.name) (mgrGetAllArtists pa) ∧
      List.Sorted albumKeyLe (mgrGetAllAlbums pb) ∧
      List.Chain' (fun a b => ¬(a.title = b.title ∧ a.artist = b.artist))
        (mgrGetAllAlbums pb) := by
  intro pa pb
  refine ⟨?_, ?_, ?_, ?_⟩
  · unfold mgrGetAllArtists
    exact (List.sorted_insertionSort artistNameLe _).sublist (dedupByKeep_sublist _ _)
  · unfold mgrGetAllArtists
    refine (chain'_dedupByKeep _ _).imp fun a b h => ?_
    exact Ne.symm (by simpa using h)
  · unfold mgrGetAllAlbums
    exact (List.sorted_insertionSort albumKeyLe _).sublist (dedupByKeep_sublist _ _)
  · unfold mgrGetAllAlbums
    refine (chain'_dedupByKeep _ _).imp fun a b h => ?_
    rintro ⟨h1, h2⟩
    rw [h1, h2] at h
    simp at h

end Nova
